import Mathlib

/-!
# Verification of the fluke_985 synchronization core

A shallow embedding of the fluke_985 IOC's polling/sync/publication logic:

* `get_state_information`, `matchNumRecords` — `fluke_985/comm.py`
  (status-page classification and the `RE_NUM_RECORDS` regular expression);
* `summarize_alarms`, `sample_period_to_seconds` — `fluke_985/data.py`;
* `find_new_rows`, `post_new_row`, `download_and_update`, `update_metadata`,
  `update_server_state`, `tick` — `fluke_985/ioc.py` (`Fluke985Base`).

Modelling conventions:
* Timestamps and numeric PV values are rationals (`ℚ`): Python floats and
  the µs-precision `datetime` round trip in `_find_new_rows` are idealized
  to exact arithmetic; the float literals `1e-6` and `0.1` become
  `1/1000000` and `1/10`.
* A pandas `DataFrame` becomes a list of `(timestamp, Row)` pairs; a `Row`
  (pandas `Series`) is an association list of column name to `Value`.
  `df.loc[cutoff:]` on the monotone timestamp index is the filter of rows
  with timestamp `≥ cutoff`; `df.tail(1)` is the last row as a singleton.
* caproto channel writes become a `Write` trace; a channel is named by its
  `pvproperty` PV name.  Exceptions become `Option`/`Bool` flags: a caught
  exception yields no write, an uncaught one aborts the surrounding pass.
-/

/-- A Python value as it appears in a parsed data-file row: a NaN float is
kept distinct from ordinary floats because `_post_new_row` branches on
`isinstance(value, float) and np.isnan(value)`. -/
inductive Value
  | nan : Value
  | float : ℚ → Value
  | int : ℤ → Value
  | str : String → Value
deriving DecidableEq, Repr

/-- caproto `AlarmStatus` values used by the IOC. -/
inductive AStatus
  | NO_ALARM
  | READ
  | UDF
  | COMM
deriving DecidableEq, Repr

/-- caproto `AlarmSeverity` values used by the IOC. -/
inductive ASeverity
  | NO_ALARM
  | MAJOR_ALARM
deriving DecidableEq, Repr

/-- One outbound channel operation, labelled by the PV name it targets.
`value` is a full `pvprop.write(value, timestamp, status, severity)`;
`valueTs` is a `write(value, timestamp)` with no explicit status/severity
(`overall_alarm`, `sample_period`); `strWrite` is a metadata string write;
`meta` is a `write_metadata(timestamp, status, severity)`; `unitsMeta` and
`engUnits` are the two `Sample Units` writes on `sample_volume`. -/
inductive Write
  | value (chan : String) (v : Value) (ts : ℚ) (status : AStatus) (severity : ASeverity)
  | valueTs (chan : String) (v : ℚ) (ts : ℚ)
  | strWrite (chan : String) (v : String) (ts : ℚ)
  | meta (chan : String) (ts : ℚ) (status : AStatus) (severity : ASeverity)
  | unitsMeta (chan : String) (units : Value)
  | engUnits (chan : String) (v : Value)
deriving DecidableEq, Repr

/-- A table row (pandas `Series`): association list from column names to
values, in column order. -/
structure Row where
  entries : List (String × Value)
deriving DecidableEq, Repr

/-- `row[key]` as an optional lookup (`none` models a `KeyError`). -/
def Row.lookup (r : Row) (k : String) : Option Value :=
  (r.entries.find? (fun e => e.1 == k)).map (·.2)

/-- The watermark state owned by the sync cycle: the autosaved
`last_timestamp` PV (epoch seconds) and the `sync_records` PV. -/
structure Watermark where
  lastTimestamp : ℚ
  syncRecords : ℕ
deriving DecidableEq, Repr

/-! ## comm.py: status-page interpretation -/

/-- Substring containment, `needle in hay` on Python strings. -/
def containsSub (hay needle : List Char) : Bool :=
  match hay with
  | [] => needle.isEmpty
  | _ :: t => needle.isPrefixOf hay || containsSub t needle

/-- `needle in hay` for `String`. -/
def containsStr (hay needle : String) : Bool :=
  containsSub hay.toList needle.toList

/-- Numeric value of an ASCII digit run (most significant first). -/
def digitsToNat (cs : List Char) : ℕ :=
  cs.foldl (fun a c => 10 * a + (c.toNat - '0'.toNat)) 0

/-- Match a literal at the head of the input, returning the remainder. -/
def dropLit : List Char → List Char → Option (List Char)
  | [], rest => some rest
  | _ :: _, [] => none
  | l :: ls, c :: cs => if c = l then dropLit ls cs else none

/-- Attempt `left>(\d\d*)<.td>` exactly at the head of `cs` (the suffix of
`RE_NUM_RECORDS` after the lazy gap): the literal `left>`, a maximal
nonempty digit run, `<`, one non-newline character, and the literal `td>`.
Shrinking the greedy digit run can never help (the following character
would have to be both a digit and `<`), so the maximal run is exact. -/
def matchRecordsAt (cs : List Char) : Option ℕ :=
  match dropLit "left>".toList cs with
  | none => none
  | some rest =>
    let ds := rest.takeWhile Char.isDigit
    let rest2 := rest.dropWhile Char.isDigit
    if ds.isEmpty then none
    else
      match rest2 with
      | '<' :: c :: rest3 =>
        if c ≠ '\n' ∧ (dropLit "td>".toList rest3).isSome then
          some (digitsToNat ds)
        else none
      | _ => none

/-- The lazy gap `.*?` of `RE_NUM_RECORDS`: try the tail pattern at the
current position first, then extend the gap one (non-newline) character at
a time. -/
def lazyGapSearch : List Char → Option ℕ
  | [] => none
  | c :: cs =>
    match matchRecordsAt (c :: cs) with
    | some n => some n
    | none => if c = '\n' then none else lazyGapSearch cs

/-- `re.search` for `RE_NUM_RECORDS`: try each start position left to
right for the literal `DATA.TSV` (the escaped `DATA\.TSV`), then the lazy
gap and the tail pattern. -/
def searchNumRecords : List Char → Option ℕ
  | [] => none
  | c :: cs =>
    match dropLit "DATA.TSV".toList (c :: cs) with
    | some rest =>
      match lazyGapSearch rest with
      | some n => some n
      | none => searchNumRecords cs
    | none => searchNumRecords cs

/-- `RE_NUM_RECORDS.search(html)`, returning the captured record count.
The pattern is `DATA\.TSV.*?left>(\d\d*)<.td>`; `\d` is modelled as the
ASCII digits the device's pages contain. -/
def matchNumRecords (s : String) : Option ℕ :=
  searchNumRecords s.toList

/-- Result of `comm.get_state_information`: the `state` entry is always
present, the `records` entry only when the regular expression matched. -/
structure StateInfo where
  state : String
  records : Option ℕ
deriving DecidableEq, Repr

/-- `comm.get_state_information`: prioritized substring classification of
the status page followed by the record-count search.  Total on all
inputs (the Python function raises no exception). -/
def get_state_information (html : String) : StateInfo :=
  let state :=
    if containsStr html "New data available." then "new_data"
    else if containsStr html "Building Data file" then "rebuilding"
    else if containsStr html "Click link above to download" then "download"
    else "unknown"
  { state := state, records := matchNumRecords html }

/-! ## data.py: alarm summary and sample period -/

/-- `data.ALARM_KEYS`. -/
def ALARM_KEYS : List String :=
  ["Cal Alarm", "Flow Alarm", "Over Conc. Alarm", "System Alarm",
   "Count Alarm", "Battery Alarm", "Laser Alarm"]

/-- Python's `x > y` on row values, as `max()` evaluates it: numeric
comparisons (any comparison involving a NaN is `False`, in either
position), lexicographic code-point comparison between two strings, and
a `TypeError` (`none`) between a string and a number.  `.float` values
are the non-NaN floats; NaN is the separate `.nan` constructor. -/
def pyGt : Value → Value → Option Bool
  | .int a, .int b => some (decide (b < a))
  | .int a, .float b => some (decide (b < (a : ℚ)))
  | .int _, .nan => some false
  | .float a, .int b => some (decide ((b : ℚ) < a))
  | .float a, .float b => some (decide (b < a))
  | .float _, .nan => some false
  | .nan, .int _ => some false
  | .nan, .float _ => some false
  | .nan, .nan => some false
  | .str a, .str b => some (decide (b < a))
  | _, _ => none

/-- Python `max` over a nonempty sequence: keep the first item, replace
the running maximum only when `item > current` is `True`.  Because every
comparison against NaN is `False`, a NaN in the first position is
returned as the maximum while a NaN in any later position is silently
skipped; a string/number comparison raises (`none`). -/
def pyMaxFold : Value → List Value → Option Value
  | acc, [] => some acc
  | acc, v :: vs =>
    match pyGt v acc with
    | none => none
    | some true => pyMaxFold v vs
    | some false => pyMaxFold acc vs

/-- `data.summarize_alarms`: `max(row[key] for key in ALARM_KEYS)`.
`none` is a raised exception: a missing key (`KeyError`) or a
string/number comparison (`TypeError`). -/
def summarize_alarms (row : Row) : Option Value :=
  match ALARM_KEYS.mapM row.lookup with
  | some (v :: vs) => pyMaxFold v vs
  | _ => none

/-- Python `int(s)`: optional surrounding spaces, an optional sign, then a
nonempty digit run. -/
def parsePyInt (s : String) : Option ℤ :=
  let cs := ((s.toList.dropWhile (· = ' ')).reverse.dropWhile (· = ' ')).reverse
  let core : List Char → Option ℕ := fun ds =>
    if ds ≠ [] ∧ ds.all Char.isDigit then some (digitsToNat ds) else none
  match cs with
  | '-' :: rest => (core rest).map (fun n => -(n : ℤ))
  | '+' :: rest => (core rest).map (fun n => (n : ℤ))
  | rest => (core rest).map (fun n => (n : ℤ))

/-- `data.sample_period_to_seconds`: split on `:` into exactly three
fields (otherwise the tuple unpacking raises) and combine
`3600*H + 60*M + S`. -/
def sample_period_to_seconds (s : String) : Option ℤ :=
  match (s.splitOn ":").map parsePyInt with
  | [some h, some m, some sec] => some (3600 * h + 60 * m + sec)
  | _ => none

/-! ## ioc.py: field→channel table and a single row publish -/

/-- Declared scalar type of a channel: `type(prop.value)` for the
corresponding `pvproperty` initial value. -/
inductive ChanType
  | tInt
  | tFloat
  | tStr
deriving DecidableEq, Repr

/-- One entry of `Fluke985Base._data_key_to_property`: row field name, PV
name of the target channel, and the channel's declared scalar type. -/
structure ChanSpec where
  key : String
  chan : String
  ty : ChanType
deriving DecidableEq, Repr

/-- `Fluke985Base._data_key_to_property` (27 entries, source order). -/
def DATA_KEY_TO_PROPERTY : List ChanSpec :=
  [⟨"Sample Volume", "SampleVolume", .tFloat⟩,
   ⟨"Count Mode", "CountMode", .tStr⟩,
   ⟨"Concentration Mode", "ConcentrationMode", .tStr⟩,
   ⟨"0.3um", "Norm0_3um", .tFloat⟩,
   ⟨"0.5um", "Norm0_5um", .tFloat⟩,
   ⟨"1.0um", "Norm1_0um", .tFloat⟩,
   ⟨"2.0um", "Norm2_0um", .tFloat⟩,
   ⟨"5.0um", "Norm5_0um", .tFloat⟩,
   ⟨"10.0um", "Norm10_0um", .tFloat⟩,
   ⟨"Sample Mode", "SampleMode", .tStr⟩,
   ⟨"Location Name", "LocationName", .tStr⟩,
   ⟨"Sample Number", "SampleNumber", .tInt⟩,
   ⟨"Cal. Value", "CalibratedValue", .tFloat⟩,
   ⟨"Laser Current", "LaserCurrent", .tFloat⟩,
   ⟨"0.3um (Cum. Counts)", "Raw0_3um", .tFloat⟩,
   ⟨"0.5um (Cum. Counts)", "Raw0_5um", .tFloat⟩,
   ⟨"1.0um (Cum. Counts)", "Raw1_0um", .tFloat⟩,
   ⟨"2.0um (Cum. Counts)", "Raw2_0um", .tFloat⟩,
   ⟨"5.0um (Cum. Counts)", "Raw5_0um", .tFloat⟩,
   ⟨"10.0um (Cum. Counts)", "Raw10_0um", .tFloat⟩,
   ⟨"Cal Alarm", "CalAlarm", .tInt⟩,
   ⟨"Flow Alarm", "FlowAlarm", .tInt⟩,
   ⟨"Over Conc. Alarm", "OverConcAlarm", .tInt⟩,
   ⟨"System Alarm", "SystemAlarm", .tInt⟩,
   ⟨"Count Alarm", "CountAlarm", .tInt⟩,
   ⟨"Battery Alarm", "BatteryAlarm", .tInt⟩,
   ⟨"Laser Alarm", "LaserAlarm", .tInt⟩]

/-- `self._data_key_to_property[key]` as an optional lookup. -/
def lookupSpec (key : String) : Option ChanSpec :=
  DATA_KEY_TO_PROPERTY.find? (fun s => s.key == key)

/-- Truncation toward zero, the behaviour of Python `int(float)`. -/
def truncQ (q : ℚ) : ℤ :=
  if 0 ≤ q then ⌊q⌋ else ⌈q⌉

/-- Python decimal parsing for `float(s)`: optional sign and
`digits[.digits]` with at least one digit.  (Exponent, `inf`/`nan`, and
underscore forms never occur in the data files and are not modelled.) -/
def parsePyFloat (s : String) : Option ℚ :=
  let cs := ((s.toList.dropWhile (· = ' ')).reverse.dropWhile (· = ' ')).reverse
  let core : List Char → Option ℚ := fun ds =>
    match (List.splitOn '.' ds) with
    | [ip] => if ip ≠ [] ∧ ip.all Char.isDigit then some ((digitsToNat ip : ℚ)) else none
    | [ip, fp] =>
      if (ip ≠ [] ∨ fp ≠ []) ∧ ip.all Char.isDigit ∧ fp.all Char.isDigit then
        some ((digitsToNat ip : ℚ) + (digitsToNat fp : ℚ) / ((10 : ℚ) ^ fp.length))
      else none
    | _ => none
  match cs with
  | '-' :: rest => (core rest).map (fun q => -q)
  | '+' :: rest => core rest
  | rest => core rest

/-- Python `str(v)`.  For floats the model uses the rational's canonical
rendering; Python's float `repr` formats differently, but no string-typed
channel ever receives a float in the data files. -/
def pyStrOfValue : Value → String
  | .str s => s
  | .int n => toString n
  | .float q => toString q
  | .nan => "nan"

/-- `type_cast(value)` in `_post_new_row`: coercion of a raw row value to
the channel's declared type; `none` is a raised (and caught) exception.
The `.nan` rows never reach this point (the NaN branch precedes it). -/
def pyCast : ChanType → Value → Option Value
  | .tStr, v => some (.str (pyStrOfValue v))
  | .tInt, .int n => some (.int n)
  | .tInt, .float q => some (.int (truncQ q))
  | .tInt, .str s => (parsePyInt s).map Value.int
  | .tInt, .nan => none
  | .tFloat, .float q => some (.float q)
  | .tFloat, .int n => some (.float (n : ℚ))
  | .tFloat, .str s => (parsePyFloat s).map Value.float
  | .tFloat, .nan => some .nan

/-- The shared `(status, severity)` pair derived from `alarm_summary` in
`_post_new_row`: `(READ, MAJOR_ALARM)` when truthy, else
`(NO_ALARM, NO_ALARM)`. -/
def alarmStatusSeverity (summary : ℚ) : AStatus × ASeverity :=
  if summary ≠ 0 then (.READ, .MAJOR_ALARM) else (.NO_ALARM, .NO_ALARM)

/-- One iteration of the field loop in `_post_new_row`: skip keys outside
the table; a NaN value produces only the undefined-quality metadata
write; otherwise coerce and write, a failed coercion being caught and
producing nothing. -/
def fieldWrite (ts : ℚ) (st : AStatus) (sev : ASeverity) (e : String × Value) : List Write :=
  match lookupSpec e.1 with
  | none => []
  | some spec =>
    if e.2 = .nan then [.meta spec.chan ts .UDF .NO_ALARM]
    else
      match pyCast spec.ty e.2 with
      | some v => [.value spec.chan v ts st sev]
      | none => []

/-- Final binding of the loop variable `value` after one iteration of the
field loop (it is reused by the `Sample Units` block): the raw value for
keys outside the table and for the NaN branch, the coerced value when the
coercion succeeded. -/
def leftoverStep (v : Value) (spec? : Option ChanSpec) : Value :=
  match spec? with
  | none => v
  | some spec => if v = .nan then v else (pyCast spec.ty v).getD v

/-- The loop variable `value` left over after the field loop (used by
`sample_volume.field_inst.engineering_units.write(value=value)`), when the
row is nonempty. -/
def leftoverValue (r : Row) : Option Value :=
  r.entries.getLast?.map (fun e => leftoverStep e.2 (lookupSpec e.1))

/-- The `Sample Units` block of `_post_new_row`.  The `try` only catches
`KeyError`; `np.isnan` on a string value raises a `TypeError` that escapes
`_post_new_row` (second component `true`). -/
def unitsWrites (row : Row) : List Write × Bool :=
  match row.lookup "Sample Units" with
  | none => ([], false)
  | some u =>
    match u with
    | .nan => ([], false)
    | .str _ => ([], true)
    | _ =>
      match leftoverValue row with
      | some lv => ([.unitsMeta "SampleVolume" u, .engUnits "SampleVolume" lv], false)
      | none => ([], true)

/-- The `Sample Period` block of `_post_new_row`: every failure (missing
key, non-string value, malformed period) is caught and produces nothing. -/
def periodWrites (ts : ℚ) (row : Row) : List Write :=
  match row.lookup "Sample Period" with
  | some (.str s) =>
    match sample_period_to_seconds s with
    | some n => [.valueTs "SamplePeriod" (n : ℚ) ts]
    | none => []
  | _ => []

/-- The `overall_alarm.write(value=alarm_summary, ...)` call on the
integer channel: an ordinary numeric succeeds (the trace records the
value handed to `write`; the sink's own integer coercion is out of
scope), while NaN or a string raises during conversion — an exception
the surrounding `try` catches. -/
def overallWriteValue : Value → Option ℚ
  | .int n => some ((n : ℤ) : ℚ)
  | .float q => some q
  | .nan => none
  | .str _ => none

/-- The `OverallAlarm` writes of the summary block of `_post_new_row`:
one write when both the summary and its channel write succeed, none when
either raises (the exception is caught). -/
def overallWrites (ts : ℚ) (row : Row) : List Write :=
  match summarize_alarms row with
  | none => []
  | some v =>
    match overallWriteValue v with
    | some q => [Write.valueTs "OverallAlarm" q ts]
    | none => []

/-- The value of `alarm_summary` after the summary block: the computed
maximum when summarize-and-write succeeded, the fail-safe `1` set by the
`except` branch otherwise. -/
def alarmSummaryOf (row : Row) : ℚ :=
  match summarize_alarms row with
  | none => 1
  | some v => (overallWriteValue v).getD 1

/-- `Fluke985Base._post_new_row` as a write trace plus a raised? flag.
The summary block runs first (writing `OverallAlarm` when it succeeds),
then the field loop with the shared `(status, severity)` pair derived
from `alarm_summary`, then the `Sample Units` block (whose `TypeError`
on a string value aborts the rest), then the sample-period write. -/
def post_new_row (ts : ℚ) (row : Row) : List Write × Bool :=
  let overall := overallWrites ts row
  let stsev := alarmStatusSeverity (alarmSummaryOf row)
  let fields := (row.entries.map (fieldWrite ts stsev.1 stsev.2)).flatten
  let uw := unitsWrites row
  if uw.2 then (overall ++ fields ++ uw.1, true)
  else (overall ++ fields ++ uw.1 ++ periodWrites ts row, false)

/-! ## ioc.py: the row diff and the download pass -/

/-- `df.tail(1)`: the last row as a singleton (empty for an empty table). -/
def tail1 (df : List (ℚ × Row)) : List (ℚ × Row) :=
  match df.getLast? with
  | some r => [r]
  | none => []

/-- `df.loc[cutoff:]` of `_find_new_rows` on the monotone timestamp
index: every row with timestamp at least `lastTs + 0.1`. -/
def cutoffFilter (lastTs : ℚ) (df : List (ℚ × Row)) : List (ℚ × Row) :=
  df.filter (fun r => lastTs + 1/10 ≤ r.1)

/-- `Fluke985Base._find_new_rows`: cold start (`last_timestamp < 1e-6`)
returns only the last row; otherwise the cutoff selection, except that an
empty selection with `sync_records == 0` falls back to the last row. -/
def find_new_rows (w : Watermark) (df : List (ℚ × Row)) : List (ℚ × Row) :=
  if w.lastTimestamp < 1/1000000 then tail1 df
  else
    let items := cutoffFilter w.lastTimestamp df
    if items.length = 0 ∧ w.syncRecords = 0 then tail1 df
    else items

/-- Insert a row into a timestamp-sorted list (helper for `sortByTs`). -/
def insertByTs (x : ℚ × Row) : List (ℚ × Row) → List (ℚ × Row)
  | [] => [x]
  | y :: ys => if x.1 ≤ y.1 then x :: y :: ys else y :: insertByTs x ys

/-- `sorted(... .iterrows())` in `_download_and_update`: the selected rows
in ascending timestamp order.  (Python compares the `(timestamp, Series)`
tuples; the timestamps of an export are strictly increasing, so the order
is by timestamp.) -/
def sortByTs (l : List (ℚ × Row)) : List (ℚ × Row) :=
  l.foldr insertByTs []

/-- The publish loop of `_download_and_update`: post each selected row,
then advance `last_timestamp` to that row's timestamp.  A row whose post
raised (the `Sample Units` `TypeError`) aborts the loop: its trace is
recorded (the write attempts happened) but `last_timestamp` is not
advanced to it and later rows are not reached.  Returns the final
watermark, the per-row traces, and whether the loop completed. -/
def runRows : Watermark → List (ℚ × Row) → Watermark × List (ℚ × List Write) × Bool
  | w, [] => (w, [], true)
  | w, (ts, row) :: rest =>
    let p := post_new_row ts row
    if p.2 then (w, [(ts, p.1)], false)
    else
      let next := runRows { w with lastTimestamp := ts } rest
      (next.1, (ts, p.1) :: next.2.1, next.2.2)

/-! ## ioc.py: metadata updates -/

/-- `Fluke985Base._metadata_to_property`: header key to PV name, in
source order.  Every one of these string channels has `max_length=40`. -/
def METADATA_TO_PROPERTY : List (String × String) :=
  [("Model Number", "ModelNumber"),
   ("Serial Number", "SerialNumber"),
   ("Firmware Version", "FirmwareVersion"),
   ("Hardware Version", "HardwareVersion"),
   ("Bootloader", "BootloaderVersion")]

/-- `metadata.get(key, 'unknown')` on the parsed header dictionary. -/
def mdGet (md : List (String × String)) (key : String) : String :=
  ((md.find? (fun e => e.1 == key)).map (·.2)).getD "unknown"

/-- `Fluke985Base._write_metadata_if_changed`: truncate to the channel's
`max_length`, write only when the truncated value differs from the
channel's current value.  Returns the written value, if any. -/
def write_metadata_if_changed (cur v : String) (maxLen : ℕ) : Option String :=
  let v := v.take maxLen
  if cur = v then none else some v

/-- The metadata write `_write_metadata_if_changed` performs for one
(table entry, current channel value) pair. -/
def metaWriteOf (md : List (String × String)) (ts : ℚ)
    (p : (String × String) × String) : Option Write :=
  (write_metadata_if_changed p.2 (mdGet md p.1.1) 40).map
    (fun v => Write.strWrite p.1.2 v ts)

/-- `Fluke985Base._update_metadata`: for each of the five header keys,
write `metadata.get(key, 'unknown')` through
`_write_metadata_if_changed`.  `curr` is the list of the five channels'
current values, in `METADATA_TO_PROPERTY` order; `ts` is the wall-clock
`time.time()` stamp.  (The source's sequential loop touches each channel
once, so it equals this per-entry computation; writes are listed in
table order as the loop performs them.) -/
def update_metadata (curr : List String) (md : List (String × String)) (ts : ℚ) :
    List String × List Write :=
  ((METADATA_TO_PROPERTY.zip curr).map
     (fun p => (write_metadata_if_changed p.2 (mdGet md p.1.1) 40).getD p.2),
   (METADATA_TO_PROPERTY.zip curr).filterMap (metaWriteOf md ts))

/-! ## ioc.py: the download pass and the periodic tick -/

/-- Result of `Fluke985Base._download_and_update`: the watermark and
metadata channel values after the pass, the metadata writes, the per-row
publish traces, and whether the pass completed without an uncaught
exception. -/
structure DownloadResult where
  wm : Watermark
  metaCurr : List String
  metaWrites : List Write
  rowTraces : List (ℚ × List Write)
  ok : Bool
deriving DecidableEq, Repr

/-- `Fluke985Base._download_and_update` on an already-downloaded table:
update the metadata channels, publish the sorted new rows (advancing
`last_timestamp` after each completed post), then set `sync_records` to
the table's total row count — the latter only when no row post raised. -/
def download_and_update (w : Watermark) (metaCurr : List String)
    (md : List (String × String)) (nowTs : ℚ) (df : List (ℚ × Row)) : DownloadResult :=
  let meta := update_metadata metaCurr md nowTs
  let sel := sortByTs (find_new_rows w df)
  let run := runRows w sel
  if run.2.2 then
    ⟨{ run.1 with syncRecords := df.length }, meta.1, meta.2, run.2.1, true⟩
  else
    ⟨run.1, meta.1, meta.2, run.2.1, false⟩

/-- The PV state of `Fluke985Base` that the sync cycle reads and writes:
`server_state`, `available_records`, the watermark
(`last_timestamp`/`sync_records`), and the five metadata channels. -/
structure IocState where
  serverState : String
  availableRecords : ℕ
  wm : Watermark
  metaCurr : List String
deriving DecidableEq, Repr

/-- `Fluke985Base._update_server_state` given the status page text:
update `available_records` when the page carried a count, update
`server_state`, and issue a rebuild command exactly when the interpreted
state is `new_data` and `new_records_available`
(`available_records > sync_records`).  Returns the new state and whether
the rebuild command was issued. -/
def update_server_state (st : IocState) (html : String) : IocState × Bool :=
  let info := get_state_information html
  let st1 :=
    match info.records with
    | some r => { st with availableRecords := r }
    | none => st
  let st2 := { st1 with serverState := info.state }
  (st2, info.state == "new_data" && decide (st2.wm.syncRecords < st2.availableRecords))

/-- `Fluke985Base._should_download`. -/
def should_download (st : IocState) : Bool :=
  st.serverState == "download" && decide (st.wm.syncRecords < st.availableRecords)

/-- Result of one `update_hook` tick. -/
structure TickResult where
  state : IocState
  rebuildIssued : Bool
  downloaded : Bool
  ok : Bool
  rowTraces : List (ℚ × List Write)
deriving DecidableEq, Repr

/-- One `update_hook` tick: interpret the status page, then download and
publish when `_should_download`.  An exception escaping the download
(`ok = false`) is caught at the top of the tick (the alarm forcing it
performs is not traced here); the PV writes that already happened — the
partially advanced watermark and metadata — persist. -/
def tick (st : IocState) (html : String) (md : List (String × String))
    (nowTs : ℚ) (df : List (ℚ × Row)) : TickResult :=
  let up := update_server_state st html
  if should_download up.1 then
    let res := download_and_update up.1.wm up.1.metaCurr md nowTs df
    ⟨{ up.1 with wm := res.wm, metaCurr := res.metaCurr }, up.2, true, res.ok, res.rowTraces⟩
  else
    ⟨up.1, up.2, false, true, []⟩

/-! ## Helper lemmas about the sort and the selection -/

theorem insertByTs_perm (x : ℚ × Row) (l : List (ℚ × Row)) :
    List.Perm (insertByTs x l) (x :: l) := by
  induction l with
  | nil => simp [insertByTs]
  | cons y ys ih =>
    simp only [insertByTs]
    split
    · exact List.Perm.refl _
    · exact (ih.cons y).trans (List.Perm.swap x y ys)

theorem sortByTs_perm (l : List (ℚ × Row)) : List.Perm (sortByTs l) l := by
  induction l with
  | nil => simp [sortByTs]
  | cons y ys ih =>
    simpa [sortByTs] using (insertByTs_perm y (sortByTs ys)).trans (ih.cons y)

theorem insertByTs_pairwise {x : ℚ × Row} {l : List (ℚ × Row)}
    (h : List.Pairwise (fun a b => a.1 ≤ b.1) l) :
    List.Pairwise (fun a b => a.1 ≤ b.1) (insertByTs x l) := by
  induction l with
  | nil => simp [insertByTs]
  | cons y ys ih =>
    rcases List.pairwise_cons.mp h with ⟨hy, hys⟩
    simp only [insertByTs]
    split
    · rename_i hxy
      refine List.pairwise_cons.mpr ⟨?_, h⟩
      intro z hz
      rcases List.mem_cons.mp hz with rfl | hz
      · exact hxy
      · exact le_trans hxy (hy z hz)
    · rename_i hxy
      refine List.pairwise_cons.mpr ⟨?_, ih hys⟩
      intro z hz
      rcases List.mem_cons.mp ((insertByTs_perm x ys).mem_iff.mp hz) with rfl | hz2
      · exact le_of_not_le hxy
      · exact hy z hz2

theorem sortByTs_sorted (l : List (ℚ × Row)) :
    List.Pairwise (fun a b => a.1 ≤ b.1) (sortByTs l) := by
  induction l with
  | nil => simp [sortByTs]
  | cons y ys ih => simpa [sortByTs] using insertByTs_pairwise (x := y) ih

theorem lastMem {α : Type} {l : List α} {r : α} (h : l.getLast? = some r) : r ∈ l := by
  induction l with
  | nil => simp at h
  | cons y ys ih =>
    cases ys with
    | nil =>
      simp only [List.getLast?_singleton, Option.some.injEq] at h
      simp [h]
    | cons z zs =>
      rw [List.getLast?_cons_cons] at h
      exact List.mem_cons_of_mem y (ih h)

theorem sorted_le_getLast {l : List (ℚ × Row)} {r : ℚ × Row}
    (hs : List.Pairwise (fun a b => a.1 ≤ b.1) l) (hr : l.getLast? = some r) :
    ∀ x ∈ l, x.1 ≤ r.1 := by
  induction l with
  | nil => simp at hr
  | cons y ys ih =>
    rcases List.pairwise_cons.mp hs with ⟨hy, hys⟩
    intro x hx
    cases ys with
    | nil =>
      simp only [List.getLast?_singleton, Option.some.injEq] at hr
      rcases List.mem_singleton.mp hx with rfl
      rw [hr]
    | cons z zs =>
      rw [List.getLast?_cons_cons] at hr
      rcases List.mem_cons.mp hx with rfl | hx
      · exact hy r (lastMem hr)
      · exact ih hys hr x hx

theorem tail1_subset (df : List (ℚ × Row)) : tail1 df ⊆ df := by
  unfold tail1
  cases h : df.getLast? with
  | none => simp
  | some r =>
    intro x hx
    rcases List.mem_singleton.mp hx with rfl
    exact lastMem h

theorem find_new_rows_subset (w : Watermark) (df : List (ℚ × Row)) :
    find_new_rows w df ⊆ df := by
  unfold find_new_rows
  split_ifs with h1
  · exact tail1_subset df
  · show (if (cutoffFilter w.lastTimestamp df).length = 0 ∧ w.syncRecords = 0
      then tail1 df else cutoffFilter w.lastTimestamp df) ⊆ df
    split_ifs with h2
    · exact tail1_subset df
    · exact List.filter_subset' df

/-- Unfolding of `find_new_rows` in the cold-start branch. -/
theorem find_new_rows_cold (w : Watermark) (df : List (ℚ × Row))
    (hcold : w.lastTimestamp < 1/1000000) :
    find_new_rows w df = tail1 df := by
  unfold find_new_rows
  rw [if_pos hcold]

/-- Unfolding of `find_new_rows` with a set watermark. -/
theorem find_new_rows_warm (w : Watermark) (df : List (ℚ × Row))
    (hwarm : ¬ w.lastTimestamp < 1/1000000) :
    find_new_rows w df =
      (if (cutoffFilter w.lastTimestamp df).length = 0 ∧ w.syncRecords = 0
       then tail1 df else cutoffFilter w.lastTimestamp df) := by
  unfold find_new_rows
  rw [if_neg hwarm]

/-! ## Claims about the row diff -/

/-- A minimal concrete row (no fields), used to instantiate theorems. -/
def row0 : Row := ⟨[]⟩

/-- **C2**: with an effectively-unset watermark (`lastPublishedTimestamp
< 1e-6`), the row diff yields exactly the single most-recent row of the
table, however many rows it has. -/
theorem c2_cold_start_single_row (w : Watermark) (df : List (ℚ × Row))
    (hcold : w.lastTimestamp < 1/1000000) (hne : df ≠ [])
    (hsorted : List.Pairwise (fun a b => a.1 ≤ b.1) df) :
    ∃ r, find_new_rows w df = [r] ∧ r ∈ df ∧ ∀ x ∈ df, x.1 ≤ r.1 := by
  obtain ⟨r, hr⟩ : ∃ r, df.getLast? = some r :=
    ⟨df.getLast hne, List.getLast?_eq_getLast_of_ne_nil hne⟩
  refine ⟨r, ?_, lastMem hr, sorted_le_getLast hsorted hr⟩
  rw [find_new_rows_cold w df hcold, tail1, hr]

/-- Concrete table for the diff-claim witnesses. -/
def dfTwoRows : List (ℚ × Row) := [(5, row0), (7, row0)]

theorem c2_witness :
    ∃ r, find_new_rows ⟨0, 0⟩ dfTwoRows = [r] ∧ r ∈ dfTwoRows ∧
      ∀ x ∈ dfTwoRows, x.1 ≤ r.1 :=
  c2_cold_start_single_row ⟨0, 0⟩ dfTwoRows (by norm_num)
    (by with_unfolding_all decide) (by with_unfolding_all decide)

/-- **C3**: with a set watermark (`≥ 1e-6`) and an empty cutoff
selection, the diff returns the single most-recent row when
`lastKnownCount == 0` (the reboot fallback) and the empty set when
`lastKnownCount != 0`. -/
theorem c3_empty_selection_fallback (w : Watermark) (df : List (ℚ × Row))
    (hwarm : 1/1000000 ≤ w.lastTimestamp)
    (hemp : cutoffFilter w.lastTimestamp df = [])
    (hsorted : List.Pairwise (fun a b => a.1 ≤ b.1) df) :
    (w.syncRecords = 0 ∧ df ≠ [] →
      ∃ r, find_new_rows w df = [r] ∧ r ∈ df ∧ ∀ x ∈ df, x.1 ≤ r.1) ∧
    (w.syncRecords ≠ 0 → find_new_rows w df = []) := by
  have hnotcold : ¬ w.lastTimestamp < 1/1000000 := not_lt.mpr hwarm
  rw [find_new_rows_warm w df hnotcold]
  constructor
  · rintro ⟨hsync, hne⟩
    obtain ⟨r, hr⟩ : ∃ r, df.getLast? = some r :=
      ⟨df.getLast hne, List.getLast?_eq_getLast_of_ne_nil hne⟩
    refine ⟨r, ?_, lastMem hr, sorted_le_getLast hsorted hr⟩
    rw [if_pos ⟨by rw [hemp]; rfl, hsync⟩, tail1, hr]
  · intro hsync
    rw [if_neg (fun h => hsync h.2), hemp]

/-- Concrete one-row table below the watermark cutoff. -/
def dfLowRow : List (ℚ × Row) := [(mkRat 1 2, row0)]

theorem c3_witness :
    (∃ r, find_new_rows ⟨1, 0⟩ dfLowRow = [r] ∧ r ∈ dfLowRow ∧
      ∀ x ∈ dfLowRow, x.1 ≤ r.1) ∧
    find_new_rows ⟨1, 3⟩ dfLowRow = [] :=
  ⟨(c3_empty_selection_fallback ⟨1, 0⟩ dfLowRow (by norm_num)
      (by with_unfolding_all decide) (by with_unfolding_all decide)).1
      ⟨rfl, by simp [dfLowRow]⟩,
   (c3_empty_selection_fallback ⟨1, 3⟩ dfLowRow (by norm_num)
      (by with_unfolding_all decide) (by with_unfolding_all decide)).2
      (by simp)⟩

/-- Concrete table/watermark refuting C1 as stated: selection empty,
count zero. -/
def dfC1 : List (ℚ × Row) := [(0, row0)]

/-- **C1** (counterexample): the claim "for `lastPublishedTimestamp = t₀ ≥
1e-6` the diff computes exactly the rows with timestamp ≥ t₀ + 0.1" fails
when the cutoff selection is empty and `lastKnownCount == 0`: the reboot
fallback returns the most-recent row although the claimed selection is
empty. -/
theorem c1_counterexample :
    1/1000000 ≤ (1 : ℚ) ∧
    cutoffFilter 1 dfC1 = [] ∧
    find_new_rows ⟨1, 0⟩ dfC1 = [(0, row0)] := by
  with_unfolding_all decide

/-! ## Helper lemmas about the publish loop and the download pass -/

/-- Unfolding equation for `runRows` on a cons cell. -/
theorem runRows_cons (w : Watermark) (ts : ℚ) (row : Row) (rest : List (ℚ × Row)) :
    runRows w ((ts, row) :: rest) =
      (if (post_new_row ts row).2
       then (w, [(ts, (post_new_row ts row).1)], false)
       else
         ((runRows { w with lastTimestamp := ts } rest).1,
          (ts, (post_new_row ts row).1) :: (runRows { w with lastTimestamp := ts } rest).2.1,
          (runRows { w with lastTimestamp := ts } rest).2.2)) := rfl

/-- The publish loop never touches `sync_records`. -/
theorem runRows_syncRecords (w : Watermark) (l : List (ℚ × Row)) :
    (runRows w l).1.syncRecords = w.syncRecords := by
  induction l generalizing w with
  | nil => rfl
  | cons e rest ih =>
    obtain ⟨ts, row⟩ := e
    rw [runRows_cons]
    cases hp : (post_new_row ts row).2 with
    | true => simp
    | false => simpa using ih { w with lastTimestamp := ts }

/-- When every post completes, the loop completes. -/
theorem runRows_ok_of_all (w : Watermark) (l : List (ℚ × Row))
    (hall : ∀ r ∈ l, (post_new_row r.1 r.2).2 = false) :
    (runRows w l).2.2 = true := by
  induction l generalizing w with
  | nil => rfl
  | cons e rest ih =>
    obtain ⟨ts, row⟩ := e
    rw [runRows_cons]
    have hp : (post_new_row ts row).2 = false := hall (ts, row) (by simp)
    rw [hp]
    simpa using ih { w with lastTimestamp := ts } (fun r hr => hall r (by simp [hr]))

/-- When the loop completes, `last_timestamp` ends at the final row's
timestamp (or is untouched if no row was selected). -/
theorem runRows_ok_last (w : Watermark) (l : List (ℚ × Row))
    (hok : (runRows w l).2.2 = true) :
    (runRows w l).1.lastTimestamp = (l.getLast?).elim w.lastTimestamp Prod.fst := by
  induction l generalizing w with
  | nil => rfl
  | cons e rest ih =>
    obtain ⟨ts, row⟩ := e
    rw [runRows_cons] at hok ⊢
    cases hp : (post_new_row ts row).2 with
    | true => rw [hp] at hok; simp at hok
    | false =>
      rw [hp] at hok
      simp only [Bool.false_eq_true, if_false] at hok ⊢
      cases rest with
      | nil => simp [runRows]
      | cons e2 rest2 =>
        rw [List.getLast?_cons_cons]
        have := ih { w with lastTimestamp := ts } (by simpa using hok)
        simpa using this

/-- When the loop completes, the trace lists exactly the selected rows'
timestamps, in order. -/
theorem runRows_ok_traces (w : Watermark) (l : List (ℚ × Row))
    (hok : (runRows w l).2.2 = true) :
    (runRows w l).2.1.map Prod.fst = l.map Prod.fst := by
  induction l generalizing w with
  | nil => rfl
  | cons e rest ih =>
    obtain ⟨ts, row⟩ := e
    rw [runRows_cons] at hok ⊢
    cases hp : (post_new_row ts row).2 with
    | true => rw [hp] at hok; simp at hok
    | false =>
      rw [hp] at hok
      simp only [Bool.false_eq_true, if_false] at hok ⊢
      simpa using ih { w with lastTimestamp := ts } (by simpa using hok)

/-- The final `last_timestamp` is either untouched or the timestamp of
one of the posted (traced) rows. -/
theorem runRows_last_mem (w : Watermark) (l : List (ℚ × Row)) :
    (runRows w l).1.lastTimestamp = w.lastTimestamp ∨
      (runRows w l).1.lastTimestamp ∈ (runRows w l).2.1.map Prod.fst := by
  induction l generalizing w with
  | nil => left; rfl
  | cons e rest ih =>
    obtain ⟨ts, row⟩ := e
    rw [runRows_cons]
    cases hp : (post_new_row ts row).2 with
    | true => simp
    | false =>
      simp only [if_false, Bool.false_eq_true]
      rcases ih { w with lastTimestamp := ts } with h | h
      · right
        simp [h]
      · right
        simp only [List.map_cons, List.mem_cons]
        right
        exact h

/-- Every traced timestamp comes from a selected row. -/
theorem runRows_traces_fst_subset (w : Watermark) (l : List (ℚ × Row)) :
    (runRows w l).2.1.map Prod.fst ⊆ l.map Prod.fst := by
  induction l generalizing w with
  | nil => simp [runRows]
  | cons e rest ih =>
    obtain ⟨ts, row⟩ := e
    rw [runRows_cons]
    cases hp : (post_new_row ts row).2 with
    | true => simp
    | false =>
      simp only [if_false, Bool.false_eq_true, List.map_cons]
      intro x hx
      rcases List.mem_cons.mp hx with rfl | hx
      · simp
      · exact List.mem_cons_of_mem _ (ih { w with lastTimestamp := ts } hx)

/-- A lower bound on all selected timestamps and on the starting
watermark is a lower bound on the final watermark. -/
theorem runRows_mono (b : ℚ) (w : Watermark) (l : List (ℚ × Row))
    (hl : ∀ r ∈ l, b ≤ r.1) (hw : b ≤ w.lastTimestamp) :
    b ≤ (runRows w l).1.lastTimestamp := by
  induction l generalizing w with
  | nil => exact hw
  | cons e rest ih =>
    obtain ⟨ts, row⟩ := e
    rw [runRows_cons]
    cases hp : (post_new_row ts row).2 with
    | true => simpa using hw
    | false =>
      simp only [if_false, Bool.false_eq_true]
      exact ih { w with lastTimestamp := ts }
        (fun r hr => hl r (by simp [hr])) (hl (ts, row) (by simp))

/-- The download pass completes exactly when its publish loop does. -/
theorem download_ok_eq (w : Watermark) (mc : List String) (md : List (String × String))
    (now : ℚ) (df : List (ℚ × Row)) :
    (download_and_update w mc md now df).ok =
      (runRows w (sortByTs (find_new_rows w df))).2.2 := by
  unfold download_and_update
  cases h : (runRows w (sortByTs (find_new_rows w df))).2.2 <;> simp [h]

/-- The download pass records the publish-loop traces unchanged. -/
theorem download_rowTraces (w : Watermark) (mc : List String) (md : List (String × String))
    (now : ℚ) (df : List (ℚ × Row)) :
    (download_and_update w mc md now df).rowTraces =
      (runRows w (sortByTs (find_new_rows w df))).2.1 := by
  unfold download_and_update
  cases h : (runRows w (sortByTs (find_new_rows w df))).2.2 <;> simp [h]

/-- The download pass's final `last_timestamp` is the publish loop's. -/
theorem download_wm_last (w : Watermark) (mc : List String) (md : List (String × String))
    (now : ℚ) (df : List (ℚ × Row)) :
    (download_and_update w mc md now df).wm.lastTimestamp =
      (runRows w (sortByTs (find_new_rows w df))).1.lastTimestamp := by
  unfold download_and_update
  cases h : (runRows w (sortByTs (find_new_rows w df))).2.2 <;> simp [h]

/-- A completed download pass sets `sync_records` to the table's length. -/
theorem download_ok_syncRecords (w : Watermark) (mc : List String)
    (md : List (String × String)) (now : ℚ) (df : List (ℚ × Row))
    (hok : (download_and_update w mc md now df).ok = true) :
    (download_and_update w mc md now df).wm.syncRecords = df.length := by
  rw [download_ok_eq] at hok
  unfold download_and_update
  simp [hok]

/-- Membership in the cutoff selection. -/
theorem mem_cutoffFilter {t : ℚ} {df : List (ℚ × Row)} {x : ℚ × Row} :
    x ∈ cutoffFilter t df ↔ x ∈ df ∧ t + 1/10 ≤ x.1 := by
  simp [cutoffFilter, List.mem_filter]

/-- **C1** (amended): for a set watermark with `lastKnownCount ≠ 0`, the
diff is exactly the cutoff selection (rows with timestamp ≥ t₀ + 0.1),
the publish order is ascending in timestamp and a permutation of the
selection, the publish loop posts exactly those rows, and — when the
publish pass completes — re-running the diff against the resulting
watermark yields the empty set. -/
theorem c1_amended_cutoff_diff_idempotent (w : Watermark) (mc : List String)
    (md : List (String × String)) (now : ℚ) (df : List (ℚ × Row))
    (hwarm : 1/1000000 ≤ w.lastTimestamp) (hcount : w.syncRecords ≠ 0)
    (hok : (download_and_update w mc md now df).ok = true) :
    find_new_rows w df = cutoffFilter w.lastTimestamp df ∧
    List.Pairwise (fun a b => a.1 ≤ b.1) (sortByTs (find_new_rows w df)) ∧
    List.Perm (sortByTs (find_new_rows w df)) (find_new_rows w df) ∧
    (download_and_update w mc md now df).rowTraces.map Prod.fst =
      (sortByTs (find_new_rows w df)).map Prod.fst ∧
    find_new_rows (download_and_update w mc md now df).wm df = [] := by
  have hnotcold : ¬ w.lastTimestamp < 1/1000000 := not_lt.mpr hwarm
  have hfr : find_new_rows w df = cutoffFilter w.lastTimestamp df := by
    rw [find_new_rows_warm w df hnotcold, if_neg (fun h => hcount h.2)]
  rw [download_ok_eq] at hok
  refine ⟨hfr, sortByTs_sorted _, sortByTs_perm _, ?_, ?_⟩
  · rw [download_rowTraces]
    exact runRows_ok_traces _ _ hok
  · -- the resulting watermark
    have hsync2 : (download_and_update w mc md now df).wm.syncRecords = df.length :=
      download_ok_syncRecords w mc md now df (by rw [download_ok_eq]; exact hok)
    have hlast2 := download_wm_last w mc md now df
    rw [runRows_ok_last _ _ hok] at hlast2
    set sel := sortByTs (find_new_rows w df) with hsel
    cases hl : sel.getLast? with
    | none =>
      -- nothing was selected: the cutoff selection is empty
      have hselnil : sel = [] := List.getLast?_eq_none_iff.mp hl
      have hfnrnil : find_new_rows w df = [] := by
        have hperm := sortByTs_perm (find_new_rows w df)
        rw [← hsel, hselnil] at hperm
        exact hperm.symm.eq_nil
      have hfilnil : cutoffFilter w.lastTimestamp df = [] := by
        rw [← hfr]
        exact hfnrnil
      rw [hl] at hlast2
      simp only [Option.elim] at hlast2
      rw [find_new_rows_warm _ df (by rw [hlast2]; exact hnotcold), hlast2]
      by_cases hdf : df = []
      · rw [if_pos ⟨by rw [hfilnil]; rfl, by rw [hsync2, hdf]; rfl⟩, hdf]
        rfl
      · rw [if_neg, hfilnil]
        rintro ⟨-, habs⟩
        rw [hsync2] at habs
        exact hdf (List.length_eq_zero.mp habs)
    | some r =>
      -- the last published row: a member of the cutoff selection
      have hrsel : r ∈ sel := lastMem hl
      have hrfil : r ∈ cutoffFilter w.lastTimestamp df := by
        rw [← hfr]
        exact (sortByTs_perm (find_new_rows w df)).subset hrsel
      have hrge : w.lastTimestamp + 1/10 ≤ r.1 := (mem_cutoffFilter.mp hrfil).2
      rw [hl] at hlast2
      simp only [Option.elim] at hlast2
      have hwarm2 : ¬ (download_and_update w mc md now df).wm.lastTimestamp < 1/1000000 := by
        rw [hlast2]
        push_neg
        calc (1 : ℚ)/1000000 ≤ w.lastTimestamp := hwarm
          _ ≤ w.lastTimestamp + 1/10 := by linarith
          _ ≤ r.1 := hrge
      have hfil2 : cutoffFilter (download_and_update w mc md now df).wm.lastTimestamp df = [] := by
        rw [hlast2]
        simp only [cutoffFilter, List.filter_eq_nil_iff]
        intro x hx
        simp only [decide_eq_true_eq, not_le]
        by_cases hxf : w.lastTimestamp + 1/10 ≤ x.1
        · have hxsel : x ∈ sel := by
            rw [hsel]
            exact (sortByTs_perm (find_new_rows w df)).symm.subset
              (by rw [hfr]; exact mem_cutoffFilter.mpr ⟨hx, hxf⟩)
          have := sorted_le_getLast (hsel ▸ sortByTs_sorted (find_new_rows w df)) hl x hxsel
          linarith
        · push_neg at hxf
          have : w.lastTimestamp ≤ r.1 := le_trans (by linarith) hrge
          linarith
      rw [find_new_rows_warm _ df hwarm2, if_neg, hfil2]
      rintro ⟨-, habs⟩
      rw [hsync2] at habs
      have hdfne : df ≠ [] := by
        intro hdf
        rw [hdf] at hrfil
        simp [cutoffFilter] at hrfil
      exact hdfne (List.length_eq_zero.mp habs)

/-- Concrete one-row table for the C1 witness. -/
def dfC1w : List (ℚ × Row) := [(2, row0)]

theorem c1_amended_witness :
    find_new_rows (download_and_update ⟨1, 5⟩ [] [] 0 dfC1w).wm dfC1w = [] :=
  (c1_amended_cutoff_diff_idempotent ⟨1, 5⟩ [] [] 0 dfC1w (by norm_num)
    (by decide) (by with_unfolding_all decide)).2.2.2.2

/-- `getLast?` of a prefix ending at index `i`. -/
theorem getLast?_take_succ {α : Type} (l : List α) :
    ∀ (i : ℕ) (h : i < l.length), (l.take (i+1)).getLast? = some (l.get ⟨i, h⟩) := by
  induction l with
  | nil => intro i h; simp at h
  | cons a t ih =>
    intro i h
    cases i with
    | zero => simp
    | succ i =>
      have ht : i < t.length := by simpa using h
      have ihh := ih i ht
      rw [List.take_succ_cons]
      cases htt : t.take (i+1) with
      | nil => rw [htt] at ihh; simp at ihh
      | cons b bs =>
        rw [htt] at ihh
        rw [List.getLast?_cons_cons]
        simpa using ihh

/-- After the publish loop has processed the first `i+1` selected rows
(all completing), `last_timestamp` equals the `i`-th row's timestamp. -/
theorem runRows_take_last (w : Watermark) (l : List (ℚ × Row))
    (hall : ∀ r ∈ l, (post_new_row r.1 r.2).2 = false)
    (i : ℕ) (h : i < l.length) :
    (runRows w (l.take (i+1))).1.lastTimestamp = (l.get ⟨i, h⟩).1 := by
  have hok : (runRows w (l.take (i+1))).2.2 = true :=
    runRows_ok_of_all _ _ (fun r hr => hall r (List.take_subset _ _ hr))
  rw [runRows_ok_last _ _ hok, getLast?_take_succ l i h]
  rfl

/-- **C4**: when each selected row's publish attempt completes (every
field-level failure inside `_post_new_row` is caught; no hypothesis about
individual field writes succeeding is needed), the watermark's
`last_timestamp` equals the `i`-th selected row's timestamp right after
that row is processed, and after the pass `sync_records` is set to the
downloaded table's total row count. -/
theorem c4_watermark_after_each_row (w : Watermark) (mc : List String)
    (md : List (String × String)) (now : ℚ) (df : List (ℚ × Row))
    (hall : ∀ r ∈ sortByTs (find_new_rows w df), (post_new_row r.1 r.2).2 = false) :
    (download_and_update w mc md now df).ok = true ∧
    (download_and_update w mc md now df).wm.syncRecords = df.length ∧
    (∀ (i : ℕ) (h : i < (sortByTs (find_new_rows w df)).length),
      (runRows w ((sortByTs (find_new_rows w df)).take (i+1))).1.lastTimestamp =
        ((sortByTs (find_new_rows w df)).get ⟨i, h⟩).1) ∧
    (download_and_update w mc md now df).wm.lastTimestamp =
      ((sortByTs (find_new_rows w df)).getLast?).elim w.lastTimestamp Prod.fst := by
  have hok0 : (runRows w (sortByTs (find_new_rows w df))).2.2 = true :=
    runRows_ok_of_all _ _ hall
  have hok : (download_and_update w mc md now df).ok = true := by
    rw [download_ok_eq]
    exact hok0
  refine ⟨hok, download_ok_syncRecords w mc md now df hok, ?_, ?_⟩
  · intro i h
    exact runRows_take_last w _ hall i h
  · rw [download_wm_last, runRows_ok_last _ _ hok0]

/-- Concrete one-row table for the C4 witness. -/
def dfC4 : List (ℚ × Row) := [(3, row0)]

theorem c4_witness :
    (download_and_update ⟨0, 0⟩ [] [] 0 dfC4).ok = true ∧
    (download_and_update ⟨0, 0⟩ [] [] 0 dfC4).wm.syncRecords = dfC4.length ∧
    (download_and_update ⟨0, 0⟩ [] [] 0 dfC4).wm.lastTimestamp =
      ((sortByTs (find_new_rows ⟨0, 0⟩ dfC4)).getLast?).elim (0 : ℚ) Prod.fst := by
  have h := c4_watermark_after_each_row ⟨0, 0⟩ [] [] 0 dfC4 (by with_unfolding_all decide)
  exact ⟨h.1, h.2.1, h.2.2.2⟩

/-! ## Claims about the watermark invariant and the tick -/

/-- The IOC state for the C5 counterexample: a restored (autosaved)
watermark of 100 s with `sync_records = 0` after an IOC restart, and a
device table whose most recent row is older than the watermark. -/
def stC5 : IocState := ⟨"download", 1, ⟨100, 0⟩, []⟩

/-- The table for the C5 counterexample. -/
def dfC5 : List (ℚ × Row) := [(50, row0)]

/-- **C5** (counterexample): a sync tick on a state with
`last_timestamp = 100`, `sync_records = 0` and a table containing only a
row at timestamp 50 downloads, publishes the fallback row, and moves
`last_timestamp` backwards — the claimed monotonicity fails. -/
theorem c5_counterexample :
    (tick stC5 "Click link above to download" [] 0 dfC5).downloaded = true ∧
    (tick stC5 "Click link above to download" [] 0 dfC5).ok = true ∧
    (tick stC5 "Click link above to download" [] 0 dfC5).state.wm.lastTimestamp
      < stC5.wm.lastTimestamp := by
  with_unfolding_all decide

/-- **C5** (amended): the watermark changes only to the timestamp of a
row that was handed to the field translator in that pass (every traced
timestamp being a real table row's), and it is monotonically
non-decreasing whenever the published rows came from the cutoff selection
(i.e. outside the cold-start and reboot-fallback branches, which may move
it backwards to the republished most-recent row's timestamp). -/
theorem c5_amended_watermark_changes (w : Watermark) (mc : List String)
    (md : List (String × String)) (now : ℚ) (df : List (ℚ × Row)) :
    ((download_and_update w mc md now df).wm.lastTimestamp = w.lastTimestamp ∨
      (download_and_update w mc md now df).wm.lastTimestamp ∈
        (download_and_update w mc md now df).rowTraces.map Prod.fst) ∧
    (download_and_update w mc md now df).rowTraces.map Prod.fst ⊆ df.map Prod.fst ∧
    (1/1000000 ≤ w.lastTimestamp →
      (cutoffFilter w.lastTimestamp df ≠ [] ∨ w.syncRecords ≠ 0) →
      w.lastTimestamp ≤ (download_and_update w mc md now df).wm.lastTimestamp) := by
  refine ⟨?_, ?_, ?_⟩
  · rw [download_wm_last, download_rowTraces]
    exact runRows_last_mem w _
  · rw [download_rowTraces]
    intro x hx
    have h1 := runRows_traces_fst_subset w (sortByTs (find_new_rows w df)) hx
    have h2 : (sortByTs (find_new_rows w df)).map Prod.fst ⊆ df.map Prod.fst := by
      intro y hy
      obtain ⟨e, he, rfl⟩ := List.mem_map.mp hy
      exact List.mem_map.mpr ⟨e, find_new_rows_subset w df ((sortByTs_perm _).subset he), rfl⟩
    exact h2 h1
  · intro hwarm hcond
    rw [download_wm_last]
    have hnotcold : ¬ w.lastTimestamp < 1/1000000 := not_lt.mpr hwarm
    have hfr : find_new_rows w df = cutoffFilter w.lastTimestamp df := by
      rw [find_new_rows_warm w df hnotcold, if_neg]
      rintro ⟨h1, h2⟩
      rcases hcond with hc | hc
      · exact hc (List.length_eq_zero.mp h1)
      · exact hc h2
    refine runRows_mono w.lastTimestamp w _ ?_ (le_refl _)
    intro r hr
    have hrf : r ∈ cutoffFilter w.lastTimestamp df := by
      rw [← hfr]
      exact (sortByTs_perm _).subset hr
    have := (mem_cutoffFilter.mp hrf).2
    linarith

/-- Concrete table for the C5 witness. -/
def dfC5w : List (ℚ × Row) := [(2, row0)]

theorem c5_amended_witness :
    (1 : ℚ) ≤ (download_and_update ⟨1, 2⟩ [] [] 0 dfC5w).wm.lastTimestamp :=
  (c5_amended_watermark_changes ⟨1, 2⟩ [] [] 0 dfC5w).2.2 (by norm_num)
    (Or.inr (by decide))

/-! ## Claims about status interpretation and the rebuild decision -/

/-- The status text for the C6 counterexample: the new-data marker with
no record-count pattern. -/
def htmlC6 : String := "New data available."

/-- The initial IOC state for the C6 counterexample. -/
def stC6 : IocState := ⟨"unknown", 0, ⟨0, 0⟩, ["", "", "", "", ""]⟩

/-- **C6** (counterexample): on a fresh state, status text containing the
new-data marker and no record-count pattern interprets to `new_data` with
no record count, but the tick issues NO rebuild command (the code also
requires `available_records > sync_records`, which is `0 > 0` here) — and
no download. -/
theorem c6_counterexample :
    (get_state_information htmlC6).state = "new_data" ∧
    (get_state_information htmlC6).records = none ∧
    (tick stC6 htmlC6 [] 0 []).rebuildIssued = false ∧
    (tick stC6 htmlC6 [] 0 []).downloaded = false := by
  with_unfolding_all decide

/-- **C6** (amended): a rebuild command is issued iff the interpreted
state is `new_data` AND `available_records` (after any update from this
page) exceeds `sync_records`; when the page carries no record-count
pattern `available_records` is left unchanged; and a `new_data` tick
never downloads, its rebuild decision being exactly the guarded one. -/
theorem c6_amended_rebuild_guard (st : IocState) (html : String)
    (md : List (String × String)) (now : ℚ) (df : List (ℚ × Row)) :
    ((update_server_state st html).2 = true ↔
      ((get_state_information html).state = "new_data" ∧
       (update_server_state st html).1.wm.syncRecords <
         (update_server_state st html).1.availableRecords)) ∧
    ((get_state_information html).records = none →
      (update_server_state st html).1.availableRecords = st.availableRecords) ∧
    ((get_state_information html).state = "new_data" →
      (tick st html md now df).downloaded = false ∧
      (tick st html md now df).rebuildIssued = (update_server_state st html).2) := by
  refine ⟨?_, ?_, ?_⟩
  · simp [update_server_state]
  · intro h
    simp [update_server_state, h]
  · intro h
    have hsd : should_download (update_server_state st html).1 = false := by
      simp [should_download, update_server_state, h]
    constructor
    · simp [tick, hsd]
    · simp [tick, hsd]

/-- State with stale `available_records = 5` for the C6 witness. -/
def stC6w : IocState := ⟨"unknown", 5, ⟨0, 0⟩, []⟩

theorem c6_amended_witness :
    (tick stC6w htmlC6 [] 0 []).downloaded = false ∧
    (tick stC6w htmlC6 [] 0 []).rebuildIssued = (update_server_state stC6w htmlC6).2 :=
  (c6_amended_rebuild_guard stC6w htmlC6 [] 0 []).2.2 (by decide)

/-- **C8**: the status interpreter is a prioritized first-match
containment test over the three markers (new-data, then rebuilding, then
ready-to-download), yielding `unknown` when none is present; it is a
total function, as the Python code raises on no input either; and the record count
in its result is exactly the regular-expression search's: present iff the
pattern matches, omitted (never zero) when it does not. -/
theorem c8_state_classification (html : String) :
    ((get_state_information html).state = "new_data" ↔
      containsStr html "New data available." = true) ∧
    ((get_state_information html).state = "rebuilding" ↔
      (containsStr html "New data available." = false ∧
       containsStr html "Building Data file" = true)) ∧
    ((get_state_information html).state = "download" ↔
      (containsStr html "New data available." = false ∧
       containsStr html "Building Data file" = false ∧
       containsStr html "Click link above to download" = true)) ∧
    ((get_state_information html).state = "unknown" ↔
      (containsStr html "New data available." = false ∧
       containsStr html "Building Data file" = false ∧
       containsStr html "Click link above to download" = false)) ∧
    (get_state_information html).records = matchNumRecords html := by
  cases h1 : containsStr html "New data available." <;>
  cases h2 : containsStr html "Building Data file" <;>
  cases h3 : containsStr html "Click link above to download" <;>
    simp [get_state_information, h1, h2, h3]

/-- A rebuilding status page for the C8 witness. -/
def htmlC8 : String := "Building Data file"

theorem c8_witness :
    (get_state_information htmlC8).state = "rebuilding" :=
  ((c8_state_classification htmlC8).2.1).mpr (by decide)

/-! ## Claim about the per-row alarm summary -/

/-- Shape of the `Sample Units` block's writes. -/
theorem unitsWrites_mem {row : Row} {wr : Write} (h : wr ∈ (unitsWrites row).1) :
    (∃ u, wr = Write.unitsMeta "SampleVolume" u) ∨
    (∃ v, wr = Write.engUnits "SampleVolume" v) := by
  unfold unitsWrites at h
  cases hl : row.lookup "Sample Units" with
  | none => simp only [hl] at h; simp at h
  | some u =>
    simp only [hl] at h
    cases u with
    | nan => simp at h
    | str s => simp at h
    | float q =>
      cases hlv : leftoverValue row with
      | none => simp only [hlv] at h; simp at h
      | some lv =>
        simp only [hlv] at h
        simp only [List.mem_cons, List.mem_singleton] at h
        rcases h with rfl | rfl | h0
        · exact Or.inl ⟨_, rfl⟩
        · exact Or.inr ⟨lv, rfl⟩
        · simp at h0
    | int n =>
      cases hlv : leftoverValue row with
      | none => simp only [hlv] at h; simp at h
      | some lv =>
        simp only [hlv] at h
        simp only [List.mem_cons, List.mem_singleton] at h
        rcases h with rfl | rfl | h0
        · exact Or.inl ⟨_, rfl⟩
        · exact Or.inr ⟨lv, rfl⟩
        · simp at h0

/-- Shape of the sample-period write. -/
theorem periodWrites_mem {ts : ℚ} {row : Row} {wr : Write}
    (h : wr ∈ periodWrites ts row) :
    ∃ n : ℤ, wr = Write.valueTs "SamplePeriod" (n : ℚ) ts := by
  unfold periodWrites at h
  cases hl : row.lookup "Sample Period" with
  | none => simp only [hl] at h; simp at h
  | some u =>
    simp only [hl] at h
    cases u with
    | nan => simp at h
    | float q => simp at h
    | int n => simp at h
    | str s =>
      cases hp : sample_period_to_seconds s with
      | none => simp only [hp] at h; simp at h
      | some n =>
        simp only [hp] at h
        exact ⟨n, List.mem_singleton.mp h⟩

/-- Shape of the summary block's writes. -/
theorem overallWrites_mem {ts : ℚ} {row : Row} {wr : Write}
    (h : wr ∈ overallWrites ts row) :
    ∃ q, wr = Write.valueTs "OverallAlarm" q ts := by
  unfold overallWrites at h
  cases hs : summarize_alarms row with
  | none => simp only [hs] at h; simp at h
  | some v =>
    simp only [hs] at h
    cases hv : overallWriteValue v with
    | none => simp only [hv] at h; simp at h
    | some q =>
      simp only [hv] at h
      exact ⟨q, List.mem_singleton.mp h⟩

/-- The full write trace of `_post_new_row`, laid out by block. -/
theorem post_new_row_trace (ts : ℚ) (row : Row) :
    (post_new_row ts row).1 =
      overallWrites ts row ++
      (row.entries.map (fieldWrite ts
        (alarmStatusSeverity (alarmSummaryOf row)).1
        (alarmStatusSeverity (alarmSummaryOf row)).2)).flatten ++
      (unitsWrites row).1 ++
      (if (unitsWrites row).2 then [] else periodWrites ts row) := by
  unfold post_new_row
  cases h : (unitsWrites row).2 <;> simp [h]

/-- The row refuting the spec's fail-safe: `Flow Alarm` is NaN
(unreadable) while the other six alarm fields are 0. -/
def rowC7bug : Row :=
  ⟨[("Cal Alarm", .int 0), ("Flow Alarm", .nan), ("Over Conc. Alarm", .int 0),
    ("System Alarm", .int 0), ("Count Alarm", .int 0), ("Battery Alarm", .int 0),
    ("Laser Alarm", .int 0)]⟩

/-- Does this write carry `MAJOR_ALARM` severity? -/
def isMajorSeverityWrite : Write → Bool
  | .value _ _ _ _ .MAJOR_ALARM => true
  | .meta _ _ _ .MAJOR_ALARM => true
  | _ => false

/-- **C7** (code bug): on a row whose `Flow Alarm` is NaN and whose other
six alarm fields are 0, Python's `max` silently skips the NaN (a
comparison against NaN is never `True`), so `summarize_alarms` returns 0
rather than raising: `_post_new_row` completes, publishes
`OverallAlarm = 0` as the row's first write, and no write of the row
carries `MAJOR_ALARM` — the unreadable alarm field is treated as
no-alarm, against the fail-safe the spec demands. -/
theorem c7_code_bug_nan_not_failsafe :
    summarize_alarms rowC7bug = some (Value.int 0) ∧
    alarmSummaryOf rowC7bug = 0 ∧
    (post_new_row 3 rowC7bug).1.head? = some (Write.valueTs "OverallAlarm" 0 3) ∧
    (post_new_row 3 rowC7bug).2 = false ∧
    (post_new_row 3 rowC7bug).1.filter isMajorSeverityWrite = [] := by
  with_unfolding_all decide

/-! ## Claim about NaN fields -/

/-- Is this a `write_metadata` marking `chan` undefined with no alarm? -/
def isUdfMetaTo (chan : String) : Write → Bool
  | .meta c _ .UDF .NO_ALARM => c == chan
  | _ => false

/-- Is this a value write on `chan`? -/
def isValueWriteTo (chan : String) : Write → Bool
  | .value c _ _ _ _ => c == chan
  | .valueTs c _ _ => c == chan
  | _ => false

/-- A successful `lookupSpec` returns a table entry whose key matches. -/
theorem lookupSpec_mem {k : String} {spec : ChanSpec}
    (h : lookupSpec k = some spec) :
    spec ∈ DATA_KEY_TO_PROPERTY ∧ spec.key = k := by
  refine ⟨List.mem_of_find?_eq_some h, ?_⟩
  have := List.find?_some h
  simpa using this

/-- The field→channel table maps distinct keys to distinct channels. -/
theorem table_chans_nodup : (DATA_KEY_TO_PROPERTY.map ChanSpec.chan).Nodup := by
  decide

/-- No table channel collides with the two writes `_post_new_row` makes
outside the field loop. -/
theorem table_chan_reserved : ∀ spec ∈ DATA_KEY_TO_PROPERTY,
    spec.chan ≠ "OverallAlarm" ∧ spec.chan ≠ "SamplePeriod" := by
  decide

/-- Distinct keys hit distinct channels. -/
theorem lookupSpec_chan_inj {k1 k2 : String} {s1 s2 : ChanSpec}
    (h1 : lookupSpec k1 = some s1) (h2 : lookupSpec k2 = some s2)
    (hc : s1.chan = s2.chan) : k1 = k2 := by
  obtain ⟨hm1, hk1⟩ := lookupSpec_mem h1
  obtain ⟨hm2, hk2⟩ := lookupSpec_mem h2
  have := List.inj_on_of_nodup_map table_chans_nodup hm1 hm2 hc
  rw [← hk1, ← hk2, this]

/-- A field-loop iteration over a different key writes nothing to `spec`'s
channel. -/
theorem fieldWrite_filter_other (ts : ℚ) (st : AStatus) (sev : ASeverity)
    {e : String × Value} {k : String} {spec : ChanSpec}
    (hspec : lookupSpec k = some spec) (hne : e.1 ≠ k) :
    (fieldWrite ts st sev e).filter (isUdfMetaTo spec.chan) = [] ∧
    (fieldWrite ts st sev e).filter (isValueWriteTo spec.chan) = [] := by
  unfold fieldWrite
  cases hl : lookupSpec e.1 with
  | none => simp
  | some spec2 =>
    have hchan : spec2.chan ≠ spec.chan := fun hc => hne (lookupSpec_chan_inj hl hspec hc)
    by_cases hn : e.2 = .nan
    · constructor <;> simp [hn, isUdfMetaTo, isValueWriteTo, hchan]
    · cases hc2 : pyCast spec2.ty e.2 with
      | none => constructor <;> simp [hn, hc2]
      | some v2 => constructor <;> simp [hn, hc2, isUdfMetaTo, isValueWriteTo, hchan]

/-- The field-loop iteration on the NaN entry writes exactly the
undefined-quality metadata to `spec`'s channel, and no value. -/
theorem fieldWrite_filter_nan (ts : ℚ) (st : AStatus) (sev : ASeverity)
    {k : String} {spec : ChanSpec} (hspec : lookupSpec k = some spec) :
    (fieldWrite ts st sev (k, Value.nan)).filter (isUdfMetaTo spec.chan) =
      [Write.meta spec.chan ts AStatus.UDF ASeverity.NO_ALARM] ∧
    (fieldWrite ts st sev (k, Value.nan)).filter (isValueWriteTo spec.chan) = [] := by
  unfold fieldWrite
  constructor <;> simp [hspec, isUdfMetaTo, isValueWriteTo]

/-- A run of field-loop iterations over keys other than `k` writes
nothing to `spec`'s channel. -/
theorem fieldWrites_flatten_filter_none (ts : ℚ) (st : AStatus) (sev : ASeverity)
    {k : String} {spec : ChanSpec} (hspec : lookupSpec k = some spec) :
    ∀ (l : List (String × Value)), (∀ e ∈ l, e.1 ≠ k) →
      ((l.map (fieldWrite ts st sev)).flatten.filter (isUdfMetaTo spec.chan) = [] ∧
       (l.map (fieldWrite ts st sev)).flatten.filter (isValueWriteTo spec.chan) = []) := by
  intro l
  induction l with
  | nil => simp
  | cons e rest ih =>
    intro hall
    obtain ⟨h1, h2⟩ := fieldWrite_filter_other ts st sev hspec (hall e (by simp))
    obtain ⟨h3, h4⟩ := ih (fun e2 he2 => hall e2 (by simp [he2]))
    constructor <;>
      simp only [List.map_cons, List.flatten_cons, List.filter_append, h1, h2, h3, h4,
        List.append_nil]

/-- The whole field loop, on a Nodup-keyed row containing `(k, NaN)`,
writes to `spec`'s channel exactly one undefined-quality metadata write
and no value write. -/
theorem fieldWrites_flatten_filter_nan (ts : ℚ) (st : AStatus) (sev : ASeverity)
    {k : String} {spec : ChanSpec} (hspec : lookupSpec k = some spec) :
    ∀ (l : List (String × Value)), (k, Value.nan) ∈ l → (l.map Prod.fst).Nodup →
      ((l.map (fieldWrite ts st sev)).flatten.filter (isUdfMetaTo spec.chan) =
        [Write.meta spec.chan ts AStatus.UDF ASeverity.NO_ALARM] ∧
       (l.map (fieldWrite ts st sev)).flatten.filter (isValueWriteTo spec.chan) = []) := by
  intro l
  induction l with
  | nil => intro h; simp at h
  | cons e rest ih =>
    intro hmem hnd
    rw [List.map_cons] at hnd
    obtain ⟨hhead, htail⟩ := List.nodup_cons.mp hnd
    rcases List.mem_cons.mp hmem with rfl | hmem2
    · have hrest : ∀ e2 ∈ rest, e2.1 ≠ k := by
        intro e2 he2 hk2
        have hmape : e2.1 ∈ List.map Prod.fst rest := List.mem_map_of_mem Prod.fst he2
        rw [hk2] at hmape
        exact hhead hmape
      obtain ⟨hn1, hn2⟩ := fieldWrites_flatten_filter_none ts st sev hspec rest hrest
      obtain ⟨hf1, hf2⟩ := fieldWrite_filter_nan ts st sev hspec
      constructor <;>
        simp only [List.map_cons, List.flatten_cons, List.filter_append, hn1, hn2, hf1, hf2,
          List.append_nil]
    · have hek : e.1 ≠ k := by
        intro hk
        have hmape : (k, Value.nan).1 ∈ List.map Prod.fst rest :=
          List.mem_map_of_mem Prod.fst hmem2
        rw [← hk] at hmape
        exact hhead hmape
      obtain ⟨hf1, hf2⟩ := fieldWrite_filter_other ts st sev hspec hek
      obtain ⟨hi1, hi2⟩ := ih hmem2 htail
      constructor <;>
        simp only [List.map_cons, List.flatten_cons, List.filter_append, hf1, hf2, hi1, hi2,
          List.nil_append]

/-- **C9**: a field of the static field→channel table whose raw value is
a NaN float produces exactly one quality-metadata write marking its
channel undefined with no-alarm severity, and no value write for that
channel, whatever else the row contains (keys being unique as pandas
columns are). -/
theorem c9_nan_field (ts : ℚ) (row : Row) (k : String) (spec : ChanSpec)
    (hspec : lookupSpec k = some spec)
    (hmem : (k, Value.nan) ∈ row.entries)
    (hnd : (row.entries.map Prod.fst).Nodup) :
    (post_new_row ts row).1.filter (isUdfMetaTo spec.chan) =
      [Write.meta spec.chan ts AStatus.UDF ASeverity.NO_ALARM] ∧
    (post_new_row ts row).1.filter (isValueWriteTo spec.chan) = [] := by
  obtain ⟨hres1, hres2⟩ := table_chan_reserved spec (lookupSpec_mem hspec).1
  rw [post_new_row_trace]
  have hov1 : (overallWrites ts row).filter (isUdfMetaTo spec.chan) = [] := by
    rw [List.filter_eq_nil_iff]
    intro wr hw
    obtain ⟨q, rfl⟩ := overallWrites_mem hw
    simp [isUdfMetaTo]
  have hov2 : (overallWrites ts row).filter (isValueWriteTo spec.chan) = [] := by
    rw [List.filter_eq_nil_iff]
    intro wr hw
    obtain ⟨q, rfl⟩ := overallWrites_mem hw
    simp [isValueWriteTo, Ne.symm hres1]
  have hu1 : (unitsWrites row).1.filter (isUdfMetaTo spec.chan) = [] := by
    rw [List.filter_eq_nil_iff]
    intro wr hw
    rcases unitsWrites_mem hw with ⟨u, rfl⟩ | ⟨v, rfl⟩ <;> simp [isUdfMetaTo]
  have hu2 : (unitsWrites row).1.filter (isValueWriteTo spec.chan) = [] := by
    rw [List.filter_eq_nil_iff]
    intro wr hw
    rcases unitsWrites_mem hw with ⟨u, rfl⟩ | ⟨v, rfl⟩ <;> simp [isValueWriteTo]
  have hp1 : (if (unitsWrites row).2 then [] else periodWrites ts row).filter
      (isUdfMetaTo spec.chan) = [] := by
    cases (unitsWrites row).2
    · simp only [Bool.false_eq_true, if_false]
      rw [List.filter_eq_nil_iff]
      intro wr hw
      obtain ⟨n, rfl⟩ := periodWrites_mem hw
      simp [isUdfMetaTo]
    · simp
  have hp2 : (if (unitsWrites row).2 then [] else periodWrites ts row).filter
      (isValueWriteTo spec.chan) = [] := by
    cases (unitsWrites row).2
    · simp only [Bool.false_eq_true, if_false]
      rw [List.filter_eq_nil_iff]
      intro wr hw
      obtain ⟨n, rfl⟩ := periodWrites_mem hw
      simp [isValueWriteTo, Ne.symm hres2]
    · simp
  obtain ⟨hfl1, hfl2⟩ :=
    fieldWrites_flatten_filter_nan ts
      (alarmStatusSeverity (alarmSummaryOf row)).1
      (alarmStatusSeverity (alarmSummaryOf row)).2
      hspec row.entries hmem hnd
  constructor <;>
    simp only [List.filter_append, hov1, hov2, hu1, hu2, hp1, hp2, hfl1, hfl2,
      List.append_nil, List.nil_append]

/-- Concrete row with a NaN `Sample Volume` for the C9 witness. -/
def rowC9 : Row := ⟨[("Sample Volume", Value.nan)]⟩

theorem c9_witness :
    (post_new_row 3 rowC9).1.filter (isUdfMetaTo "SampleVolume") =
      [Write.meta "SampleVolume" 3 AStatus.UDF ASeverity.NO_ALARM] ∧
    (post_new_row 3 rowC9).1.filter (isValueWriteTo "SampleVolume") = [] :=
  c9_nan_field 3 rowC9 "Sample Volume" ⟨"Sample Volume", "SampleVolume", .tFloat⟩
    (by decide) (by decide) (by decide)

/-! ## Claim about missing metadata keys -/

/-- Is this a metadata string write on `chan`? -/
def isStrWriteTo (chan : String) : Write → Bool
  | .strWrite c _ _ => c == chan
  | _ => false

/-- `_write_metadata_if_changed` as a conditional. -/
theorem write_metadata_if_changed_eq (cur v : String) (n : ℕ) :
    write_metadata_if_changed cur v n =
      (if cur = v.take n then none else some (v.take n)) := rfl

/-- The metadata loop writes nothing to a channel outside its table. -/
theorem metaZip_filter_absent (md : List (String × String)) (ts : ℚ) (chan : String) :
    ∀ (tbl : List (String × String)) (curr : List String),
      chan ∉ tbl.map Prod.snd →
      ((tbl.zip curr).filterMap (metaWriteOf md ts)).filter (isStrWriteTo chan) = [] := by
  intro tbl
  induction tbl with
  | nil => intro curr h; simp
  | cons e rest ih =>
    intro curr h
    cases curr with
    | nil => simp
    | cons cur1 curs =>
      obtain ⟨key1, chan1⟩ := e
      simp only [List.map_cons, List.mem_cons] at h
      push_neg at h
      obtain ⟨hne, hrest⟩ := h
      rw [List.zip_cons_cons, List.filterMap_cons]
      cases hw : write_metadata_if_changed cur1 (mdGet md key1) 40 with
      | none =>
        have hmw : metaWriteOf md ts ((key1, chan1), cur1) = none := by
          simp [metaWriteOf, hw]
        rw [hmw]
        exact ih curs hrest
      | some v =>
        have hmw : metaWriteOf md ts ((key1, chan1), cur1) =
            some (Write.strWrite chan1 v ts) := by
          simp [metaWriteOf, hw]
        rw [hmw]
        have hf : (chan1 == chan) = false := beq_eq_false_iff_ne.mpr (Ne.symm hne)
        simp only [List.filter_cons, isStrWriteTo, hf, Bool.false_eq_true, if_false]
        exact ih curs hrest

/-- Position `i` of the metadata loop when header key `i` is absent from
the downloaded metadata: the channel receives a write of the truncated
`'unknown'` exactly when its current value differs, and its new current
value is the truncated `'unknown'`. -/
theorem metaZip_nth (md : List (String × String)) (ts : ℚ) :
    ∀ (tbl : List (String × String)) (curr : List String) (i : ℕ)
      (key chan cur : String),
      tbl.get? i = some (key, chan) → curr.get? i = some cur →
      (tbl.map Prod.snd).Nodup →
      md.find? (fun e => e.1 == key) = none →
      (((tbl.zip curr).filterMap (metaWriteOf md ts)).filter (isStrWriteTo chan) =
        (if cur = "unknown".take 40 then []
         else [Write.strWrite chan ("unknown".take 40) ts])) ∧
      ((tbl.zip curr).map
          (fun p => (write_metadata_if_changed p.2 (mdGet md p.1.1) 40).getD p.2)).get? i =
        some ("unknown".take 40) := by
  intro tbl
  induction tbl with
  | nil =>
    intro curr i key chan cur h1
    simp at h1
  | cons e rest ih =>
    intro curr i key chan cur h1 h2 hnd habs
    obtain ⟨key1, chan1⟩ := e
    cases curr with
    | nil => simp at h2
    | cons cur1 curs =>
      rw [List.map_cons] at hnd
      obtain ⟨hhead, htail⟩ := List.nodup_cons.mp hnd
      rw [List.zip_cons_cons]
      cases i with
      | zero =>
        rw [List.get?_cons_zero] at h1 h2
        have h1e : (key1, chan1) = (key, chan) := by injection h1
        have h2e : cur1 = cur := by injection h2
        obtain ⟨rfl, rfl⟩ : key1 = key ∧ chan1 = chan := by
          constructor <;> injection h1e
        subst h2e
        have hmd : mdGet md key1 = "unknown" := by simp [mdGet, habs]
        have hwe : write_metadata_if_changed cur1 (mdGet md key1) 40 =
            (if cur1 = "unknown".take 40 then none else some ("unknown".take 40)) := by
          rw [hmd, write_metadata_if_changed_eq]
        by_cases hcur : cur1 = "unknown".take 40
        · have hmw : metaWriteOf md ts ((key1, chan1), cur1) = none := by
            simp only [metaWriteOf]
            rw [hwe, if_pos hcur]
            rfl
          refine ⟨?_, ?_⟩
          · simp only [List.filterMap_cons, hmw, if_pos hcur]
            exact metaZip_filter_absent md ts chan1 rest curs hhead
          · simp only [List.map_cons, List.get?_cons_zero]
            rw [hwe, if_pos hcur]
            rw [Option.getD_none, hcur]
        · have hmw : metaWriteOf md ts ((key1, chan1), cur1) =
              some (Write.strWrite chan1 ("unknown".take 40) ts) := by
            simp only [metaWriteOf]
            rw [hwe, if_neg hcur]
            rfl
          refine ⟨?_, ?_⟩
          · simp only [List.filterMap_cons, hmw, if_neg hcur]
            have ht : isStrWriteTo chan1 (Write.strWrite chan1 ("unknown".take 40) ts) =
                true := beq_self_eq_true chan1
            simp only [List.filter_cons, ht, if_pos]
            rw [metaZip_filter_absent md ts chan1 rest curs hhead]
          · simp only [List.map_cons, List.get?_cons_zero]
            rw [hwe, if_neg hcur]
            rw [Option.getD_some]
      | succ i =>
        rw [List.get?_cons_succ] at h1 h2
        have hchan : chan1 ≠ chan := by
          intro hc
          have hm2 : chan ∈ List.map Prod.snd rest :=
            List.mem_map_of_mem Prod.snd (List.get?_mem h1)
          rw [← hc] at hm2
          exact hhead hm2
        obtain ⟨hi1, hi2⟩ := ih curs i key chan cur h1 h2 htail habs
        refine ⟨?_, ?_⟩
        · cases hw : write_metadata_if_changed cur1 (mdGet md key1) 40 with
          | none =>
            have hmw : metaWriteOf md ts ((key1, chan1), cur1) = none := by
              simp only [metaWriteOf]
              rw [hw]
              rfl
            simp only [List.filterMap_cons, hmw]
            exact hi1
          | some v =>
            have hmw : metaWriteOf md ts ((key1, chan1), cur1) =
                some (Write.strWrite chan1 v ts) := by
              simp only [metaWriteOf]
              rw [hw]
              rfl
            have hf : (chan1 == chan) = false := beq_eq_false_iff_ne.mpr hchan
            simp only [List.filterMap_cons, hmw, List.filter_cons, isStrWriteTo, hf,
              Bool.false_eq_true, if_false]
            exact hi1
        · simp only [List.map_cons, List.get?_cons_succ]
          exact hi2

/-- **C10**: on a download, a metadata channel whose header key is absent
from the downloaded metadata dictionary is written with the literal
`'unknown'` (truncated to the channel's 40-character maximum) whenever
that differs from the channel's current value — replacing any previously
shown device-reported value rather than being skipped — and the
channel's value afterwards is the truncated `'unknown'`. -/
theorem c10_missing_metadata_unknown (curr : List String) (md : List (String × String))
    (ts : ℚ) (i : ℕ) (key chan cur : String)
    (hkey : METADATA_TO_PROPERTY.get? i = some (key, chan))
    (hcur : curr.get? i = some cur)
    (habs : md.find? (fun e => e.1 == key) = none) :
    ((update_metadata curr md ts).2.filter (isStrWriteTo chan) =
      (if cur = "unknown".take 40 then []
       else [Write.strWrite chan ("unknown".take 40) ts])) ∧
    (update_metadata curr md ts).1.get? i = some ("unknown".take 40) := by
  have hnd : (METADATA_TO_PROPERTY.map Prod.snd).Nodup := by decide
  exact metaZip_nth md ts METADATA_TO_PROPERTY curr i key chan cur hkey hcur hnd habs

theorem c10_witness :
    ((update_metadata ["", "", "", "", ""] [] 2).2.filter (isStrWriteTo "ModelNumber") =
      (if "" = "unknown".take 40 then []
       else [Write.strWrite "ModelNumber" ("unknown".take 40) 2])) ∧
    (update_metadata ["", "", "", "", ""] [] 2).1.get? 0 = some ("unknown".take 40) :=
  c10_missing_metadata_unknown ["", "", "", "", ""] [] 2 0 "Model Number" "ModelNumber" ""
    (by decide) (by decide) (by decide)
